import Mathlib

/-!
Shallow embedding of the core transform logic of `createJLPTDeck.py`
(furigana alignment, additional-definition filtering, word-record
normalisation, near-duplicate resolution), together with theorems that
settle the specification claims about it.

Python strings are modelled as Lean `String`s, manipulated through their
underlying `List Char` (Python indexing/len count code points, as does
`List Char`).  Fallible code is modelled with `Except`: the
`assert False` guard of `make_furigana` on an empty kana reading becomes
`Except.error AlignError.invalidInput`, every other outcome is
`Except.ok`.
-/

set_option maxRecDepth 100000

namespace JLPT

/-- The error raised by `make_furigana` when the kana reading is empty
(the `assert False, "No kana reading provided."` guard in the source;
the specification calls this condition `InvalidInputError`). -/
inductive AlignError where
  | invalidInput
deriving DecidableEq

/-- Membership in the regex character class `[一-龯々０-９Ａ–Ｚ]` of
`KANJI_PATTERN`.  The dash between `Ａ` (U+FF21) and `Ｚ` (U+FF3A) in the
source is U+2013 (an en dash), which inside a character class is a
literal member, not a range operator; so the class holds the two ranges
U+4E00-U+9FAF and U+FF10-U+FF19 plus the four single characters
`々` (U+3005), `Ａ`, `–` (U+2013) and `Ｚ`. -/
def isKanjiChar (c : Char) : Bool :=
  decide (('一' ≤ c ∧ c ≤ '龯') ∨ c = '々' ∨ ('０' ≤ c ∧ c ≤ '９') ∨
    c = 'Ａ' ∨ c = '–' ∨ c = 'Ｚ')

/-- Membership in the regex character class `[ぁ-んァ-ヿ]` of
`KANA_PATTERN` (both dashes are ASCII hyphens, hence ranges:
U+3041-U+3093 and U+30A1-U+30FF). -/
def isKanaChar (c : Char) : Bool :=
  decide (('ぁ' ≤ c ∧ c ≤ 'ん') ∨ ('ァ' ≤ c ∧ c ≤ 'ヿ'))

/-- Maximal runs of characters satisfying `p`, as (start, end-exclusive)
index pairs; `i` is the index of the head of the remaining list and the
third argument is the start of the currently open run, if any.
`runsAux p cs 0 none` models `re.finditer(p-class-pattern, cs)`. -/
def runsAux (p : Char → Bool) : List Char → Nat → Option Nat → List (Nat × Nat)
  | [], _, none => []
  | [], i, some st => [(st, i)]
  | c :: cs, i, none =>
      if p c then runsAux p cs (i + 1) (some i) else runsAux p cs (i + 1) none
  | c :: cs, i, some st =>
      if p c then runsAux p cs (i + 1) (some st)
      else (st, i) :: runsAux p cs (i + 1) none

/-- The maximal runs matched by `re.finditer(KANJI_PATTERN, kanji)`. -/
def kanjiRuns (cs : List Char) : List (Nat × Nat) :=
  runsAux isKanjiChar cs 0 none

/-- The text of the first maximal run of characters satisfying `p`, if
any: `m2.group()` for `m2 = re.search(KANA_PATTERN, suffix)`. -/
def firstRunGroup (p : Char → Bool) (cs : List Char) : Option (List Char) :=
  let t := (cs.dropWhile (fun c => ! p c)).takeWhile p
  if t.isEmpty then none else some t

/-- Index of the first occurrence of `pat` in the second list, if any.
This models `re.search(m2.group(), suffix)`: the searched-for text is a
kana run, which contains no regex metacharacter (those are all ASCII),
so the regex search is a plain substring search. -/
def substrFind (pat : List Char) : List Char → Option Nat
  | [] => if pat.isEmpty then some 0 else none
  | c :: cs =>
      if pat.isPrefixOf (c :: cs) then some 0
      else (substrFind pat cs).map (· + 1)

/-- Python slice `cs[a:b]` for nonnegative `a`, `b` (clamped; empty when
`b ≤ a`). -/
def pySlice (cs : List Char) (a b : Nat) : List Char :=
  (cs.take b).drop a

/-- Python `str.isspace` on a single character (the character set
stripped by `str.strip()`): ASCII whitespace, the information
separators, NEL, NBSP, OGHAM SPACE MARK, the U+2000-U+200A spaces, the
line/paragraph separators, NNBSP, MMSP and the ideographic space. -/
def pyIsSpace (c : Char) : Bool :=
  decide (c.toNat = 32 ∨ (9 ≤ c.toNat ∧ c.toNat ≤ 13) ∨
    (28 ≤ c.toNat ∧ c.toNat ≤ 31) ∨ c.toNat = 0x85 ∨ c.toNat = 0xa0 ∨
    c.toNat = 0x1680 ∨ (0x2000 ≤ c.toNat ∧ c.toNat ≤ 0x200a) ∨
    c.toNat = 0x2028 ∨ c.toNat = 0x2029 ∨ c.toNat = 0x202f ∨
    c.toNat = 0x205f ∨ c.toNat = 0x3000)

/-- Python `str.strip()`: drop leading and trailing whitespace. -/
def pyStrip (cs : List Char) : List Char :=
  ((cs.dropWhile pyIsSpace).reverse.dropWhile pyIsSpace).reverse

/-- The `for m in re.finditer(KANJI_PATTERN, kanji)` loop of
`make_furigana`, one recursive step per match `(st, en)`.  State: `tt`
is the running count of kana characters already consumed by earlier
trailing-run matches (`tt` in the source), `lastMatchLoc` the end of the
previous kanji run, `outWord` the output accumulated so far.  `none`
models the `return ""` taken when the trailing kana run after a kanji
run has no occurrence in the kana string at or after the cursor. -/
def alignLoop (kanji kana : List Char) :
    List (Nat × Nat) → Nat → Nat → List Char → Option (List Char)
  | [], _, lastMatchLoc, outWord => some (outWord ++ kanji.drop lastMatchLoc)
  | (st, en) :: ms, tt, lastMatchLoc, outWord =>
      let kanaWordPos := st + tt
      match firstRunGroup isKanaChar (kanji.drop en) with
      | some grp =>
          let searchLoc := en + tt
          match substrFind grp (kana.drop searchLoc) with
          | none => none
          | some pos =>
              let s := pySlice kana kanaWordPos (searchLoc + pos)
              let out := ' ' :: (pySlice kanji st en ++ '[' :: (s ++ [']']))
              alignLoop kanji kana ms (tt + pos) en
                (outWord ++ pySlice kanji lastMatchLoc st ++ out)
      | none =>
          let s := kana.drop kanaWordPos
          let out := ' ' :: (pySlice kanji st en ++ '[' :: (s ++ [']']))
          alignLoop kanji kana ms tt en
            (outWord ++ pySlice kanji lastMatchLoc st ++ out)

/-- The furigana aligner `make_furigana(kanji, kana)` of
`createJLPTDeck.py`.  Empty kana hits the assertion (modelled as
`Except.error AlignError.invalidInput`); empty kanji returns the kana
unchanged; otherwise the finditer loop runs and the assembled word is
stripped of surrounding whitespace.  A failed trailing-run search inside
the loop returns `""` (a soft failure), modelled as `Except.ok ""`. -/
def make_furigana (kanji kana : String) : Except AlignError String :=
  if kana = "" then Except.error AlignError.invalidInput
  else if kanji = "" then Except.ok kana
  else
    match alignLoop kanji.data kana.data (kanjiRuns kanji.data) 0 0 [] with
    | none => Except.ok ""
    | some out => Except.ok (String.mk (pyStrip out))

/-- Python `str.lower()` (the definition strings this program lowers are
English glosses, so ASCII case mapping is the relevant fragment). -/
def pyLower (s : String) : String :=
  String.mk (s.data.map Char.toLower)

/-- The `letter_limit` constant of `filter_english_definitions`. -/
def letter_limit : Nat := 200

/-- The deduplication loop of `filter_english_definitions`: walk the
flattened sense strings in order, keeping a string when its lowered form
is neither among the lowered primary definitions (`first_defs`) nor
among the lowered forms already kept (`seen`). -/
def collectDefs (first_defs : List String) : List String → List String → List String
  | [], _ => []
  | s :: rest, seen =>
      if pyLower s ∈ first_defs ∨ pyLower s ∈ seen then
        collectDefs first_defs rest seen
      else
        s :: collectDefs first_defs rest (pyLower s :: seen)

/-- The length-limiting loop of `filter_english_definitions`: add each
string's length to the running total `letter_count`; at the first string
that pushes the total past the limit, cut the list there (that string
and everything after it are dropped). -/
def limitLetters (limit : Nat) : List String → Nat → List String
  | [], _ => []
  | s :: rest, letter_count =>
      if letter_count + s.length > limit then []
      else s :: limitLetters limit rest (letter_count + s.length)

/-- The additional-definition filter `filter_english_definitions` of
`createJLPTDeck.py`: deduplicate the flattened secondary definitions
against the primary ones (case-insensitively), then limit by total
letter count. -/
def filter_english_definitions (additional_lst : List (List String))
    (primary_eng_defns : List String) : List String :=
  limitLetters letter_limit
    (collectDefs (primary_eng_defns.map pyLower) additional_lst.flatten []) 0

/-- The dictionary fields of one word row that the normaliser reads:
the first kanji form, the first kana form, and the misc markers of the
first sense. -/
structure Entry where
  reading_kanji : String
  reading_kana : String
  misc : List String

/-- The `usually_kana` column: `True if "uk" in lst else False` over the
misc markers. -/
def usually_kana (e : Entry) : Bool :=
  e.misc.contains "uk"

/-- The `reading` column of `prepare_word_record`: the kana form
verbatim when the word is usually written in kana, otherwise the
furigana alignment of the kanji form against the kana form. -/
def readingOf (e : Entry) : Except AlignError String :=
  if usually_kana e then Except.ok e.reading_kana
  else make_furigana e.reading_kanji e.reading_kana

/-- The `formal_tags` list of `prepare_word_record`. -/
def formal_tags : List String := ["hon", "pol", "hum"]

/-- The tag texts that `load_jmdict_json_zip` installs for the three
formality markers; every other key maps to whatever the dictionary data
file says, which the tag pipeline never consults (only `hon`, `pol` and
`hum` survive its filter), so it is modelled as the identity. -/
def jmdict_tags_mapping : String → String
  | "n" => "noun"
  | "hon" => "honorific/尊敬語"
  | "pol" => "polite/丁寧語"
  | "hum" => "humble/謙譲語"
  | s => s

/-- The `formality` column: `[mapping[x] for x in lst if x in formal_tags]`. -/
def formalityOf (tagsMapping : String → String) (misc : List String) : List String :=
  (misc.filter (fun x => formal_tags.contains x)).map tagsMapping

/-- The `rare` column: `["rare_term" for x in lst if x in ["rare"]]`. -/
def rareOf (misc : List String) : List String :=
  (misc.filter (fun x => (["rare"] : List String).contains x)).map (fun _ => "rare_term")

/-- The `tags` column of `prepare_word_record`: first set to the string
`"usually_kana"` or `""` according to the `usually_kana` flag, then
replaced by `formality + [tags] + rare`. -/
def tagsOf (tagsMapping : String → String) (e : Entry) : List String :=
  formalityOf tagsMapping e.misc
    ++ [if usually_kana e then "usually_kana" else ""]
    ++ rareOf e.misc

/-- JLPT difficulty grades, the keys of the `jlpt_rank` dictionary of
`drop_equivalent_rows`. -/
inductive JlptLevel where
  | N5 | N4 | N3 | N2 | N1 | common
deriving DecidableEq

/-- The `jlpt_rank` dictionary: lower number = easier. -/
def jlpt_rank : JlptLevel → Nat
  | .N5 => 1
  | .N4 => 2
  | .N3 => 3
  | .N2 => 4
  | .N1 => 5
  | .common => 6

/-- The columns of a normalised row that `drop_equivalent_rows` reads:
the source-CSV `kanji` column, the assembled `tags` list, the JLPT
grade, and the computed `reading`. -/
structure Row where
  kanji : String
  tags : List String
  jlpt_level : JlptLevel
  reading : String

/-- The `has_kanji_and_usually_kana` mask of `drop_equivalent_rows`:
non-empty kanji column and a `"usually_kana"` element in the tags. -/
def has_kanji_and_usually_kana (r : Row) : Bool :=
  (r.kanji != "") && r.tags.contains "usually_kana"

/-- The `blank_kanji` mask of `drop_equivalent_rows`. -/
def blank_kanji (r : Row) : Bool :=
  r.kanji == ""

/-- The mark decision for one `(i1, i2)` pair of the nested loops of
`drop_equivalent_rows` (each point is an original positional index
paired with its row): drop the harder-graded row, and at a tie drop the
one with the larger index. -/
def markPair (p1 p2 : Nat × Row) : Nat :=
  if jlpt_rank p1.2.jlpt_level > jlpt_rank p2.2.jlpt_level then p1.1
  else if jlpt_rank p2.2.jlpt_level > jlpt_rank p1.2.jlpt_level then p2.1
  else max p1.1 p2.1

/-- The distinct reading values, one per `df.groupby("reading")` group.
pandas iterates the groups in sorted key order; the set of marked
indices collected below does not depend on that order, so the
first-appearance-biased `dedup` is an equivalent enumeration. -/
def readingKeys (rows : List Row) : List String :=
  (rows.map Row.reading).dedup

/-- The group of one reading value: the enumerated rows whose reading
equals it, in original order (as `group.index` is in the source). -/
def groupOf (rows : List Row) (rd : String) : List (Nat × Row) :=
  rows.enum.filter (fun p => p.2.reading == rd)

/-- The marks contributed by one reading group: when the group has both
a kanji-and-usually-kana row and a blank-kanji row, every such pair
contributes the index `markPair` picks. -/
def groupMarks (rows : List Row) (rd : String) : List Nat :=
  if 0 < ((groupOf rows rd).filter (fun p => has_kanji_and_usually_kana p.2)).length ∧
      0 < ((groupOf rows rd).filter (fun p => blank_kanji p.2)).length then
    ((groupOf rows rd).filter (fun p => has_kanji_and_usually_kana p.2)).flatMap
      (fun p1 => ((groupOf rows rd).filter (fun p => blank_kanji p.2)).map
        (fun p2 => markPair p1 p2))
  else []

/-- The `drop_indices` list accumulated by `drop_equivalent_rows`. -/
def drop_indices (rows : List Row) : List Nat :=
  (readingKeys rows).flatMap (groupMarks rows)

/-- The near-duplicate resolver `drop_equivalent_rows` of
`createJLPTDeck.py`: drop the rows whose index lands in the set of
collected marks, keeping the rest in original order
(`df.drop(index=set(drop_indices))`). -/
def drop_equivalent_rows (rows : List Row) : List Row :=
  (rows.enum.filter (fun p => decide (p.1 ∉ drop_indices rows))).map Prod.snd

/-- All qualifying ordered pairs of enumerated rows, as the claim
describes them: equal reading, the first row has non-empty kanji and the
`usually_kana` tag, the second has empty kanji. -/
def qualifyingPairs (rows : List Row) : List ((Nat × Row) × (Nat × Row)) :=
  (rows.enum.flatMap (fun p1 => rows.enum.map (fun p2 => (p1, p2)))).filter
    (fun q => (q.1.2.reading == q.2.2.reading) &&
      has_kanji_and_usually_kana q.1.2 && blank_kanji q.2.2)

/-- The marked indices as the claim describes them: one mark per
qualifying pair, picking the harder-graded row (larger index at a
tie). -/
def spec_marks (rows : List Row) : List Nat :=
  (qualifyingPairs rows).map (fun q => markPair q.1 q.2)

/-- The resolver as the claim describes it: drop exactly the union of
the marked indices, each record at most once, keeping all remaining
records in their original relative order and otherwise untouched. -/
def resolveSpec (rows : List Row) : List Row :=
  (rows.enum.filter (fun p => decide (p.1 ∉ spec_marks rows))).map Prod.snd

/-- Sum of the Python `len`s of a list of strings (the running total of
the limiting loop). -/
def letterTotal (l : List String) : Nat :=
  (l.map String.length).sum

/-- Helper: `runsAux` in the closed state finds no run when no character
of the list satisfies the class predicate. -/
theorem runsAux_eq_nil (p : Char → Bool) :
    ∀ (cs : List Char) (i : Nat), (∀ c ∈ cs, p c = false) → runsAux p cs i none = [] := by
  intro cs
  induction cs with
  | nil => intro i _; rfl
  | cons c cs ih =>
      intro i h
      have hc : p c = false := h c (List.mem_cons_self c cs)
      simp only [runsAux, hc, Bool.false_eq_true, if_false]
      exact ih (i + 1) fun d hd => h d (List.mem_cons_of_mem c hd)

/-- C7: for every non-empty kanji string, align(kanji, "") fails with
the invalid-input error (the assertion on a missing phonetic reading),
an exceptional outcome rather than a soft empty-string return. -/
theorem align_empty_kana_raises (kanji : String) (_h : kanji ≠ "") :
    make_furigana kanji "" = Except.error AlignError.invalidInput := by
  simp [make_furigana]

/-- C7 witness at the concrete non-empty kanji "日". -/
theorem align_empty_kana_raises_witness :
    ("日" : String) ≠ "" ∧ make_furigana "日" "" = Except.error AlignError.invalidInput :=
  ⟨by decide, align_empty_kana_raises "日" (by decide)⟩

/-- C6 counterexample: the claim quantifies over every kana string
"including the empty string", but align("", "") does not return the kana
argument: the empty-kana guard runs before the empty-kanji one, so the
call raises the invalid-input error instead of returning "". -/
theorem align_both_empty_raises :
    make_furigana "" "" = Except.error AlignError.invalidInput ∧
    make_furigana "" "" ≠ Except.ok "" :=
  ⟨rfl, fun h => by simp [make_furigana] at h⟩

/-- C6 (amended): for every non-empty kana string, align with an empty
kanji argument returns the kana argument unchanged. -/
theorem align_empty_kanji (kana : String) (h : kana ≠ "") :
    make_furigana "" kana = Except.ok kana := by
  simp [make_furigana, h]

/-- C6 witness at the concrete kana "あ". -/
theorem align_empty_kanji_witness :
    ("あ" : String) ≠ "" ∧ make_furigana "" "あ" = Except.ok "あ" :=
  ⟨by decide, align_empty_kanji "あ" (by decide)⟩

/-- C2 counterexample: the claim quantifies over every kana input, but
at kanji = "一あ", kana = "" its hypothesis holds — the kanji run "一"
is followed by the trailing kana run "あ" (first conjunct), which has no
occurrence in the kana string searched from the cursor (index 1 + 0,
second conjunct) — while the call raises the invalid-input error instead
of returning the empty string (third conjunct). -/
theorem align_failed_search_empty_kana_raises :
    firstRunGroup isKanaChar (("一あ" : String).data.drop 1) = some ['あ'] ∧
    substrFind ['あ'] (("" : String).data.drop 1) = none ∧
    make_furigana "一あ" "" = Except.error AlignError.invalidInput :=
  ⟨rfl, rfl, rfl⟩

/-- C2 (amended): for every non-empty kanji input and every non-empty
kana input, align never raises (its result is always an `Except.ok`);
whenever the scan loop aborts — which by the definition of `alignLoop`
happens exactly when the trailing kana run after some kanji run has no
occurrence in the kana string at or after the cursor — the result is
the empty string, a soft failure; in particular, when already the first
kanji run has a trailing kana run with no occurrence in the kana string
at or after the cursor (which is the run's end position, the eaten
count still being zero), the result is the empty string. -/
theorem align_soft_failure (kanji kana : String) (hkj : kanji ≠ "") (hkn : kana ≠ "") :
    (∃ s : String, make_furigana kanji kana = Except.ok s) ∧
    (alignLoop kanji.data kana.data (kanjiRuns kanji.data) 0 0 [] = none →
      make_furigana kanji kana = Except.ok "") ∧
    (∀ st en ms grp, kanjiRuns kanji.data = (st, en) :: ms →
      firstRunGroup isKanaChar (kanji.data.drop en) = some grp →
      substrFind grp (kana.data.drop en) = none →
      make_furigana kanji kana = Except.ok "") := by
  have hm : make_furigana kanji kana =
      match alignLoop kanji.data kana.data (kanjiRuns kanji.data) 0 0 [] with
      | none => Except.ok ""
      | some out => Except.ok (String.mk (pyStrip out)) := by
    simp [make_furigana, hkj, hkn]
  have hsoft : alignLoop kanji.data kana.data (kanjiRuns kanji.data) 0 0 [] = none →
      make_furigana kanji kana = Except.ok "" := by
    intro h
    rw [hm, h]
  refine ⟨?_, hsoft, ?_⟩
  · cases h : alignLoop kanji.data kana.data (kanjiRuns kanji.data) 0 0 [] with
    | none => exact ⟨"", by rw [hm, h]⟩
    | some out => exact ⟨String.mk (pyStrip out), by rw [hm, h]⟩
  · intro st en ms grp h1 h2 h3
    apply hsoft
    rw [h1]
    simp only [alignLoop, h2, Nat.add_zero, h3]

/-- C2 witness: "猫" is a kanji run, its trailing kana run "あ" does not
occur in the kana "い", and the call softly returns "". -/
theorem align_soft_failure_witness :
    make_furigana "猫あ" "い" = Except.ok "" :=
  (align_soft_failure "猫あ" "い" (by decide) (by decide)).2.2 0 1 [] ['あ']
    (by rfl) (by rfl) (by rfl)

/-- C8 counterexample: the claim says the kanji-run class includes every
wide-width Latin-letter glyph from Ａ through Ｚ, but the dash between
`Ａ` and `Ｚ` in `KANJI_PATTERN` is an en dash — a literal class member,
not a range operator — so the wide letter Ｂ is not in the class. -/
theorem wide_latin_b_not_kanji : isKanjiChar 'Ｂ' = false := by decide

/-- C8 (amended): the kanji-run class includes every wide-width digit
glyph ０-９ but, of the wide-width Latin letters, only Ａ and Ｚ
(together with the literal en dash that stands between them in the
pattern); every wide letter strictly between them is excluded.  The
claim's concrete example holds: align("７日", "なのか") = "７日[なのか]". -/
theorem kanji_class_wide_glyphs :
    (∀ c : Char, '０' ≤ c → c ≤ '９' → isKanjiChar c = true) ∧
    isKanjiChar 'Ａ' = true ∧ isKanjiChar 'Ｚ' = true ∧ isKanjiChar '–' = true ∧
    (∀ c : Char, 'Ｂ' ≤ c → c ≤ 'Ｙ' → isKanjiChar c = false) ∧
    make_furigana "７日" "なのか" = Except.ok "７日[なのか]" := by
  refine ⟨?_, by decide, by decide, by decide, ?_, by rfl⟩
  · intro c h1 h2
    simp only [isKanjiChar, decide_eq_true_eq]
    exact Or.inr (Or.inr (Or.inl ⟨h1, h2⟩))
  · intro c h1 h2
    simp only [isKanjiChar, decide_eq_false_iff_not]
    rintro (⟨h3, h4⟩ | h3 | ⟨h3, h4⟩ | h3 | h3 | h3)
    · exact absurd (le_trans h1 h4) (by decide)
    · subst h3; exact absurd h1 (by decide)
    · exact absurd (le_trans h1 h4) (by decide)
    · subst h3; exact absurd h1 (by decide)
    · subst h3; exact absurd h1 (by decide)
    · subst h3; exact absurd h2 (by decide)

/-- C8 witness: the wide digit ５ is in the class, the wide letter Ｇ is
not. -/
theorem kanji_class_wide_glyphs_witness :
    isKanjiChar '５' = true ∧ isKanjiChar 'Ｇ' = false :=
  ⟨kanji_class_wide_glyphs.1 '５' (by decide) (by decide),
   kanji_class_wide_glyphs.2.2.2.2.1 'Ｇ' (by decide) (by decide)⟩

/-- C10: for every non-empty kanji string with no character of the
kanji-run class and every non-empty kana string, align returns the
kanji argument itself, whitespace-trimmed, with no brackets emitted; the
kana argument does not appear in the result at all. -/
theorem align_no_kanji_class (kanji kana : String) (hkj : kanji ≠ "") (hkn : kana ≠ "")
    (hall : ∀ c ∈ kanji.data, isKanjiChar c = false) :
    make_furigana kanji kana = Except.ok (String.mk (pyStrip kanji.data)) := by
  have h0 : kanjiRuns kanji.data = [] := runsAux_eq_nil isKanjiChar kanji.data 0 hall
  simp [make_furigana, hkj, hkn, h0, alignLoop]

/-- C10 witness at the purely-kana surface form "あい". -/
theorem align_no_kanji_class_witness :
    make_furigana "あい" "う" = Except.ok "あい" :=
  (align_no_kanji_class "あい" "う" (by decide) (by decide) (by decide)).trans (by rfl)

/-- C5: the normaliser sets the reading to the kana form verbatim
whenever the usually-kana flag is set — whatever align would produce,
including its failures, since align is not consulted at all on that
branch — and otherwise sets it to align(surface_kanji, surface_kana). -/
theorem reading_kana_override (e : Entry) :
    (usually_kana e = true → readingOf e = Except.ok e.reading_kana) ∧
    (usually_kana e = false → readingOf e = make_furigana e.reading_kanji e.reading_kana) := by
  constructor <;> intro h <;> simp [readingOf, h]

/-- C5 witness: an entry whose align result would be the soft failure ""
still reads as its kana form. -/
theorem reading_kana_override_witness :
    readingOf { reading_kanji := "猫あ", reading_kana := "い", misc := ["uk"] } =
      Except.ok "い" :=
  (reading_kana_override { reading_kanji := "猫あ", reading_kana := "い", misc := ["uk"] }).1
    (by decide)

/-- C9 counterexample: for an entry with no formality marker, no
usually-kana flag and no rare marker, the claim says the tag list has no
elements, but the code always inserts the placeholder element between
the formality labels and the rare markers — the empty string when the
usually-kana flag is off — so the list is [""] rather than []. -/
theorem tags_placeholder_element :
    tagsOf jmdict_tags_mapping { reading_kanji := "", reading_kana := "あ", misc := [] } =
      [""] := by
  decide

/-- Helper: the rare column is one "rare_term" per "rare" marker. -/
theorem rareOf_eq_replicate : ∀ misc : List String,
    rareOf misc = List.replicate (misc.count "rare") "rare_term"
  | [] => rfl
  | a :: l => by
      have ih := rareOf_eq_replicate l
      rw [rareOf] at ih ⊢
      rw [List.filter_cons, List.count_cons]
      by_cases ha : a = "rare"
      · subst ha
        simp [ih, List.replicate_succ]
        rw [List.count_eq_countP, List.countP_eq_length_filter]
        congr 1
      · simp [ha, ih]
        rw [List.count_eq_countP, List.countP_eq_length_filter]
        congr 1

/-- C9 (amended): the tag list is the formality labels (mapped from the
hon/pol/hum misc-markers, in misc order), then one middle element that
is "usually_kana" when the entry's flag is true and the empty string
otherwise, then one "rare_term" per rare marker — with no other
elements and no reordering within a category. -/
theorem tags_structure (m : String → String) (e : Entry) :
    tagsOf m e =
      (e.misc.filter (fun x => formal_tags.contains x)).map m
        ++ [if usually_kana e then "usually_kana" else ""]
        ++ List.replicate (e.misc.count "rare") "rare_term" := by
  simp [tagsOf, formalityOf, rareOf_eq_replicate]

/-- Helper over the limiting loop, stated for an arbitrary accumulator:
the output is cut exactly before the first string whose addition pushes
the running total past the limit. -/
theorem limitLetters_eq_take (limit : Nat) :
    ∀ (defs : List String) (acc i : Nat), i < defs.length →
      limit < acc + letterTotal (defs.take (i + 1)) →
      (∀ j, j < i → acc + letterTotal (defs.take (j + 1)) ≤ limit) →
      limitLetters limit defs acc = defs.take i := by
  intro defs
  induction defs with
  | nil => intro acc i hi _ _; exact absurd hi (by simp)
  | cons s rest ih =>
      intro acc i hi hover hpre
      cases i with
      | zero =>
          have h1 : limit < acc + s.length := by
            simpa [letterTotal] using hover
          simp only [limitLetters, List.take_zero]
          rw [if_pos (by omega)]
      | succ k =>
          have h0 : acc + s.length ≤ limit := by
            have h := hpre 0 (Nat.succ_pos k)
            simpa [letterTotal] using h
          simp only [limitLetters, List.take_succ_cons]
          rw [if_neg (by omega)]
          congr 1
          apply ih (acc + s.length) k
          · simpa using Nat.lt_of_succ_lt_succ (by simpa using hi)
          · have h := hover
            simp only [letterTotal, List.take_succ_cons, List.map_cons, List.sum_cons] at h ⊢
            omega
          · intro j hj
            have h := hpre (j + 1) (Nat.succ_lt_succ hj)
            simp only [letterTotal, List.take_succ_cons, List.map_cons, List.sum_cons] at h ⊢
            omega

/-- C3: stated on `filter_english_definitions` itself, with `defs` the
deduplicated definition sequence its first stage produces: if position
`i` is the first whose string pushes the running character total past
the 200-character budget, the output is exactly the strings before
position `i`. -/
theorem filter_truncates_at_overflow (additional_lst : List (List String))
    (primary_eng_defns : List String) (defs : List String) (i : Nat)
    (hdefs : collectDefs (primary_eng_defns.map pyLower) additional_lst.flatten [] = defs)
    (hi : i < defs.length)
    (hover : letter_limit < letterTotal (defs.take (i + 1)))
    (hpre : ∀ j, j < i → letterTotal (defs.take (j + 1)) ≤ letter_limit) :
    filter_english_definitions additional_lst primary_eng_defns = defs.take i := by
  rw [filter_english_definitions, hdefs]
  exact limitLetters_eq_take letter_limit defs 0 i hi (by simpa using hover)
    (by intro j hj; simpa using hpre j hj)

/-- A 150-character definition string, for the C3 witness. -/
def defA : String := String.mk (List.replicate 150 'a')

/-- A 60-character definition string, for the C3 witness. -/
def defB : String := String.mk (List.replicate 60 'b')

/-- C3 witness: the second string pushes the total to 210 > 200, so it
and the string after it are cut while the first is retained. -/
theorem filter_truncates_at_overflow_witness :
    filter_english_definitions [[defA, defB, "c"]] [] = [defA] := by
  have h := filter_truncates_at_overflow [[defA, defB, "c"]] [] [defA, defB, "c"] 1
    (by rfl) (by decide) (by decide)
    (by
      intro j hj
      have hj0 : j = 0 := by omega
      subst hj0
      decide)
  simpa using h

/-- A 201-character definition string, for the C4 refutation. -/
def defOversize : String := String.mk (List.replicate 201 'a')

/-- C4 counterexample: the claim says a definition string that alone
exceeds the 200-character budget is retained, with truncation first
triggering on the next string; but the limiting loop cuts at the very
string that overflows, so the oversized string itself is dropped and
the output is empty. -/
theorem oversized_definition_dropped :
    defOversize.length = 201 ∧
    filter_english_definitions [[defOversize, "b"]] [] = [] :=
  ⟨rfl, rfl⟩

/-- C4 (amended): the budget check does operate only at string
granularity, but the string whose addition first exceeds the budget is
itself excluded together with everything after it; in particular a
leading definition longer than 200 characters yields an empty output. -/
theorem oversized_definition_truncates_immediately (s : String) (rest : List String)
    (h : letter_limit < s.length) :
    limitLetters letter_limit (s :: rest) 0 = [] := by
  simp only [limitLetters]
  rw [if_pos (by omega)]

/-- C4 witness at the concrete 201-character string. -/
theorem oversized_definition_truncates_immediately_witness :
    limitLetters letter_limit (defOversize :: ["b"]) 0 = [] :=
  oversized_definition_truncates_immediately defOversize ["b"] (by decide)

/-- Helper: membership in the marks of one reading group is existence of
a qualifying pair inside that group (the emptiness guard of the source
is subsumed by the pair's existence). -/
theorem mem_groupMarks_iff (rows : List Row) (rd : String) (j : Nat) :
    j ∈ groupMarks rows rd ↔
      ∃ p1 ∈ groupOf rows rd, ∃ p2 ∈ groupOf rows rd,
        has_kanji_and_usually_kana p1.2 = true ∧ blank_kanji p2.2 = true ∧
        j = markPair p1 p2 := by
  unfold groupMarks
  split
  · simp only [List.mem_flatMap, List.mem_map, List.mem_filter]
    constructor
    · rintro ⟨p1, ⟨hp1g, hp1c⟩, p2, ⟨hp2g, hp2c⟩, hj⟩
      exact ⟨p1, hp1g, p2, hp2g, hp1c, hp2c, hj.symm⟩
    · rintro ⟨p1, hp1g, p2, hp2g, hp1c, hp2c, hj⟩
      exact ⟨p1, ⟨hp1g, hp1c⟩, p2, ⟨hp2g, hp2c⟩, hj.symm⟩
  · rename_i hguard
    simp only [List.not_mem_nil, false_iff]
    rintro ⟨p1, hp1g, p2, hp2g, hp1c, hp2c, _⟩
    exact hguard
      ⟨List.length_pos.mpr (List.ne_nil_of_mem (List.mem_filter.mpr ⟨hp1g, hp1c⟩)),
       List.length_pos.mpr (List.ne_nil_of_mem (List.mem_filter.mpr ⟨hp2g, hp2c⟩))⟩

/-- Helper: membership in the claim-side marks is existence of a
qualifying pair of enumerated rows. -/
theorem mem_spec_marks_iff (rows : List Row) (j : Nat) :
    j ∈ spec_marks rows ↔
      ∃ p1 ∈ rows.enum, ∃ p2 ∈ rows.enum,
        p1.2.reading = p2.2.reading ∧
        has_kanji_and_usually_kana p1.2 = true ∧ blank_kanji p2.2 = true ∧
        j = markPair p1 p2 := by
  unfold spec_marks qualifyingPairs
  simp only [List.mem_map, List.mem_filter, List.mem_flatMap, Bool.and_eq_true, beq_iff_eq]
  constructor
  · rintro ⟨q, ⟨⟨p1, hp1, p2, hp2, rfl⟩, ⟨hrd, hc1⟩, hc2⟩, hj⟩
    exact ⟨p1, hp1, p2, hp2, hrd, hc1, hc2, hj.symm⟩
  · rintro ⟨p1, hp1, p2, hp2, hrd, hc1, hc2, hj⟩
    exact ⟨(p1, p2), ⟨⟨p1, hp1, p2, hp2, rfl⟩, ⟨hrd, hc1⟩, hc2⟩, hj.symm⟩

/-- Helper: a row paired with its index by `enum` is a member of the row
list. -/
theorem snd_mem_of_mem_enum {rows : List Row} {p : Nat × Row} (h : p ∈ rows.enum) :
    p.2 ∈ rows := by
  have h2 := List.mem_map_of_mem Prod.snd h
  rwa [List.enum_map_snd] at h2

/-- Helper: the marks the source's grouped nested loops collect are
exactly the marks of the claim's pairwise description. -/
theorem mem_drop_indices_iff (rows : List Row) (j : Nat) :
    j ∈ drop_indices rows ↔ j ∈ spec_marks rows := by
  rw [mem_spec_marks_iff]
  unfold drop_indices
  rw [List.mem_flatMap]
  constructor
  · rintro ⟨rd, _, hj⟩
    rw [mem_groupMarks_iff] at hj
    obtain ⟨p1, hp1, p2, hp2, hc1, hc2, hj⟩ := hj
    rw [groupOf, List.mem_filter] at hp1 hp2
    have hrd1 : p1.2.reading = rd := by simpa using hp1.2
    have hrd2 : p2.2.reading = rd := by simpa using hp2.2
    exact ⟨p1, hp1.1, p2, hp2.1, hrd1.trans hrd2.symm, hc1, hc2, hj⟩
  · rintro ⟨p1, hp1, p2, hp2, hrd, hc1, hc2, hj⟩
    refine ⟨p1.2.reading, ?_, ?_⟩
    · rw [readingKeys, List.mem_dedup]
      exact List.mem_map_of_mem Row.reading (snd_mem_of_mem_enum hp1)
    · rw [mem_groupMarks_iff]
      refine ⟨p1, ?_, p2, ?_, hc1, hc2, hj⟩
      · exact List.mem_filter.mpr ⟨hp1, by simp⟩
      · exact List.mem_filter.mpr ⟨hp2, by simp [hrd]⟩

/-- C1: the resolver partitions the records by exact equality of
reading and, for every pair with a kanji-and-usually-kana record and a
blank-kanji record in one group, marks the harder-tier record (the
larger original index at a tie); it drops exactly the union of the
marks and returns every unmarked record, untouched, in original
relative order — that is, it agrees with the pairwise description
`resolveSpec` built from the claim. -/
theorem resolver_matches_spec (rows : List Row) :
    drop_equivalent_rows rows = resolveSpec rows := by
  unfold drop_equivalent_rows resolveSpec
  congr 1
  apply List.filter_congr
  intro p _
  exact decide_eq_decide.mpr (not_congr (mem_drop_indices_iff rows p.1))

end JLPT
